import Mathlib

/-!
Verification of the `http-recorder` mitmproxy integration
(`src/mitmproxy/addon.py`) and of the Recorder/encoder contract its
specification describes.

The first half shallowly embeds `addon.py`: the `ignore_hosts` set, the
`should_add_flow` predicate, and the `HttpRecorder` addon class with its
`configure`, `done` and `response` hooks.  Python attribute errors
(`self.recorder` being `None`) are made explicit with an `Except` result,
and each hook additionally returns the list of calls it made into the
external `http_recorder.Recorder` object, so that "calls `add_flow`
exactly once" and "never touches the previous recorder" are statable.

The second half models the FlowRecord encoder/decoder contract of the
specification (the `http_recorder` package itself is not part of this
repository) and proves the stream round-trip property.
-/

namespace HttpRec

/-- The request part of a mitmproxy `HTTPFlow`; the addon reads only the
destination host. -/
structure Request where
  host : String
  deriving DecidableEq, Repr

/-- The response part of a mitmproxy `HTTPFlow`; the addon never inspects it,
so only a status code is kept. -/
structure Response where
  status_code : Nat
  deriving DecidableEq, Repr

/-- A mitmproxy `HTTPFlow` as seen by `addon.py`: a request, an optional
response, and an optional error. -/
structure HTTPFlow where
  request : Request
  response : Option Response
  error : Option String
  deriving DecidableEq, Repr

/-- Modelled from the spec: the external `http_recorder.Recorder`
(construction takes the destination path; `add_flow` appends a flow;
`finish` closes the session).  Its internal encoder and sink are out of
scope here; the state records the destination, the flows added, and
whether `finish` has run. -/
structure Recorder where
  record_dest : String
  flows : List HTTPFlow
  finished : Bool
  deriving DecidableEq, Repr

/-- Modelled from the spec: `http_recorder.Recorder(path)` — a freshly
constructed recorder with no flows recorded and not yet finished. -/
def Recorder.new (dest : String) : Recorder :=
  { record_dest := dest, flows := [], finished := false }

/-- Modelled from the spec: `Recorder.add_flow` appends one flow. -/
def Recorder.add_flow (r : Recorder) (f : HTTPFlow) : Recorder :=
  { r with flows := r.flows ++ [f] }

/-- Modelled from the spec: `Recorder.finish` marks the session finished. -/
def Recorder.finish (r : Recorder) : Recorder :=
  { r with finished := true }

/-- `ignore_hosts` from `addon.py`: the hardcoded host ignore set. -/
def ignore_hosts : List String :=
  ["www.googletagmanager.com", "fonts.googleapis.com", "fonts.gstatic.com"]

/-- `should_add_flow` from `addon.py`: `False` when the flow's request host
is in `ignore_hosts`, `True` otherwise. -/
def should_add_flow (flow : HTTPFlow) : Bool :=
  if flow.request.host ∈ ignore_hosts then false else true

/-- Python exceptions relevant to the addon: the `AttributeError` raised by
calling a method on `None`, plus the `ConfigError` / `LifecycleError` /
`IOError` taxonomy named by the specification (§7). -/
inductive PyExc where
  | attributeError (msg : String)
  | configError (msg : String)
  | lifecycleError (msg : String)
  | ioError (msg : String)
  deriving DecidableEq, Repr

/-- One observable call made by the addon into the external recorder
object: an `add_flow` call carrying the flow, a `finish` call, or the
construction of a fresh `Recorder` for a destination path. -/
inductive Event where
  | addFlowCalled (f : HTTPFlow)
  | finishCalled
  | recorderConstructed (dest : String)
  deriving DecidableEq, Repr

/-- The `HttpRecorder` addon object: its single attribute `recorder`,
initialised to `None` by `__init__`. -/
structure HttpRecorder where
  recorder : Option Recorder
  deriving DecidableEq, Repr

/-- `HttpRecorder.__init__`: `self.recorder = None`. -/
def HttpRecorder.new : HttpRecorder := { recorder := none }

/-- `HttpRecorder.configure(update)` from `addon.py`: when `"record_dest"`
is in the update set, replace `self.recorder` with a freshly constructed
`Recorder(ctx.options.record_dest)`; otherwise do nothing.  The second
component lists the calls made into the external recorder objects. -/
def HttpRecorder.configure (st : HttpRecorder) (update : List String)
    (record_dest : String) : HttpRecorder × List Event :=
  if "record_dest" ∈ update then
    ({ recorder := some (Recorder.new record_dest) },
      [Event.recorderConstructed record_dest])
  else
    (st, [])

/-- `HttpRecorder.done()` from `addon.py`: `self.recorder.finish()`.  When
`self.recorder` is `None` this raises `AttributeError`; otherwise it calls
`finish` on the current recorder and does nothing else. -/
def HttpRecorder.done (st : HttpRecorder) :
    Except PyExc (HttpRecorder × List Event) :=
  match st.recorder with
  | none => Except.error
      (PyExc.attributeError "NoneType object has no attribute finish")
  | some r => Except.ok ({ recorder := some r.finish }, [Event.finishCalled])

/-- `HttpRecorder.response(flow)` from `addon.py`: when
`flow.error == None and should_add_flow(flow)`, call
`self.recorder.add_flow(flow)` (an `AttributeError` when `self.recorder`
is `None`); otherwise do nothing. -/
def HttpRecorder.response (st : HttpRecorder) (flow : HTTPFlow) :
    Except PyExc (HttpRecorder × List Event) :=
  if flow.error = none ∧ should_add_flow flow then
    match st.recorder with
    | none => Except.error
        (PyExc.attributeError "NoneType object has no attribute add_flow")
    | some r =>
        Except.ok ({ recorder := some (r.add_flow flow) },
          [Event.addFlowCalled flow])
  else
    Except.ok (st, [])

/-- The guard of `HttpRecorder.response` with the external
`recorder.add_flow` call left abstract: the source wraps the call in no
try/except, so the hook's outcome on the accepted branch is exactly the
call's outcome. -/
def responseWithSink {E A : Type} (add_flow_call : HTTPFlow → Except E A)
    (flow : HTTPFlow) : Except E (Option A) :=
  if flow.error = none ∧ should_add_flow flow then
    (add_flow_call flow).map some
  else
    Except.ok none

/-- Modelled from the spec: the request part of a `FlowRecord` (§3) —
method, host, path, an order-preserving header mapping, and body bytes.
Bytes are abstracted as natural-number symbols. -/
structure ReqRecord where
  method : List Nat
  host : List Nat
  path : List Nat
  headers : List (List Nat × List Nat)
  body : List Nat
  deriving DecidableEq, Repr

/-- Modelled from the spec: the response part of a `FlowRecord` (§3) —
status code, header mapping, body bytes. -/
structure RespRecord where
  status : Nat
  headers : List (List Nat × List Nat)
  body : List Nat
  deriving DecidableEq, Repr

/-- Modelled from the spec: a `FlowRecord` (§3) — id, timestamp, request,
optional response, optional error. -/
structure FlowRecord where
  fid : List Nat
  timestamp : Nat
  request : ReqRecord
  response : Option RespRecord
  error : Option (List Nat)
  deriving DecidableEq, Repr

/-- Modelled from the spec: a well-formed `FlowRecord` handed to the
Recorder has `error == null` and a non-null `response` (§3 invariant). -/
def FlowRecord.wellFormed (r : FlowRecord) : Prop :=
  r.error = none ∧ r.response ≠ none

instance (r : FlowRecord) : Decidable r.wellFormed := by
  unfold FlowRecord.wellFormed; infer_instance

/-- Length-prefixed framing of one symbol sequence: the length followed by
the symbols.  This is the self-delimiting scheme the spec allows
("length-prefixed ... exact wire format is an implementation choice"). -/
def encChunk (bs : List Nat) : List Nat := bs.length :: bs

/-- Decode one length-prefixed chunk off the front of a stream, returning
the chunk and the unconsumed tail. -/
def decChunk : List Nat → Option (List Nat × List Nat)
  | [] => none
  | n :: rest =>
      if n ≤ rest.length then some (rest.take n, rest.drop n) else none

/-- Encode one bare natural number as a single symbol. -/
def encNat (n : Nat) : List Nat := [n]

/-- Decode one bare natural number off the front of a stream. -/
def decNat : List Nat → Option (Nat × List Nat)
  | [] => none
  | n :: rest => some (n, rest)

/-- Encode one header key/value pair as two chunks. -/
def encHeaderKV (kv : List Nat × List Nat) : List Nat :=
  encChunk kv.1 ++ encChunk kv.2

/-- Decode one header key/value pair. -/
def decHeaderKV (s : List Nat) : Option ((List Nat × List Nat) × List Nat) :=
  (decChunk s).bind fun (k, s₁) =>
    (decChunk s₁).bind fun (v, s₂) =>
      some ((k, v), s₂)

/-- Decode exactly `k` items with the item decoder `d`, threading the
unconsumed tail. -/
def decCount {α : Type} (d : List Nat → Option (α × List Nat)) :
    Nat → List Nat → Option (List α × List Nat)
  | 0, s => some ([], s)
  | k + 1, s =>
      (d s).bind fun (a, s₁) =>
        (decCount d k s₁).bind fun (as, s₂) =>
          some (a :: as, s₂)

/-- Encode a header mapping: a count symbol followed by the encoded
key/value pairs in order. -/
def encHeaders (hs : List (List Nat × List Nat)) : List Nat :=
  hs.length :: (hs.map encHeaderKV).flatten

/-- Decode a header mapping. -/
def decHeaders (s : List Nat) :
    Option (List (List Nat × List Nat) × List Nat) :=
  (decNat s).bind fun (n, s₁) => decCount decHeaderKV n s₁

/-- Encode an optional value: tag symbol `0` for absent, `1` followed by
the payload for present. -/
def encOpt {α : Type} (f : α → List Nat) : Option α → List Nat
  | none => [0]
  | some a => 1 :: f a

/-- Decode an optional value. -/
def decOpt {α : Type} (d : List Nat → Option (α × List Nat)) :
    List Nat → Option (Option α × List Nat)
  | [] => none
  | n :: rest =>
      if n = 0 then some (none, rest)
      else if n = 1 then (d rest).bind fun (a, s₁) => some (some a, s₁)
      else none

/-- Encode the request part of a record: its five fields in order. -/
def encReq (rq : ReqRecord) : List Nat :=
  encChunk rq.method ++ encChunk rq.host ++ encChunk rq.path ++
    encHeaders rq.headers ++ encChunk rq.body

/-- Decode the request part of a record. -/
def decReq (s : List Nat) : Option (ReqRecord × List Nat) :=
  (decChunk s).bind fun (m, s₁) =>
    (decChunk s₁).bind fun (h, s₂) =>
      (decChunk s₂).bind fun (p, s₃) =>
        (decHeaders s₃).bind fun (hs, s₄) =>
          (decChunk s₄).bind fun (b, s₅) =>
            some (⟨m, h, p, hs, b⟩, s₅)

/-- Encode the response part of a record: status, headers, body. -/
def encResp (rp : RespRecord) : List Nat :=
  encNat rp.status ++ encHeaders rp.headers ++ encChunk rp.body

/-- Decode the response part of a record. -/
def decResp (s : List Nat) : Option (RespRecord × List Nat) :=
  (decNat s).bind fun (st, s₁) =>
    (decHeaders s₁).bind fun (hs, s₂) =>
      (decChunk s₂).bind fun (b, s₃) =>
        some (⟨st, hs, b⟩, s₃)

/-- Modelled from the spec: `encode(flow: FlowRecord) -> bytes` (§4.1) —
a deterministic, self-delimiting encoding of one record: id, timestamp,
request, optional response, optional error, each field self-delimiting. -/
def encode (r : FlowRecord) : List Nat :=
  encChunk r.fid ++ encNat r.timestamp ++ encReq r.request ++
    encOpt encResp r.response ++ encOpt encChunk r.error

/-- Decode one record off the front of a stream. -/
def decRecord (s : List Nat) : Option (FlowRecord × List Nat) :=
  (decChunk s).bind fun (i, s₁) =>
    (decNat s₁).bind fun (ts, s₂) =>
      (decReq s₂).bind fun (rq, s₃) =>
        (decOpt decResp s₃).bind fun (rp, s₄) =>
          (decOpt decChunk s₄).bind fun (er, s₅) =>
            some (⟨i, ts, rq, rp, er⟩, s₅)

/-- Decode records until the stream is exhausted, with a fuel bound on the
number of records (any fuel at least the stream length suffices, since
each record consumes at least one symbol). -/
def decStreamAux : Nat → List Nat → Option (List FlowRecord)
  | _, [] => some []
  | 0, _ :: _ => none
  | fuel + 1, s@(_ :: _) =>
      (decRecord s).bind fun (r, s₁) =>
        (decStreamAux fuel s₁).bind fun rs =>
          some (r :: rs)

/-- Modelled from the spec: `decode_stream(bytes)` (§4.1) — the records of
an append-only stream, in append order; `none` on a stream that is not a
concatenation of complete records. -/
def decode_stream (s : List Nat) : Option (List FlowRecord) :=
  decStreamAux s.length s

/-- The concatenation of the encodings of a sequence of records — the byte
stream `concat(encode(r) for r in seq)` of the round-trip property. -/
def encodeAll (seq : List FlowRecord) : List Nat :=
  (seq.map encode).flatten

theorem decChunk_encChunk (bs tail : List Nat) :
    decChunk (encChunk bs ++ tail) = some (bs, tail) := by
  simp only [encChunk, List.cons_append, decChunk]
  rw [if_pos (by simp)]
  rw [List.take_left, List.drop_left]

theorem decNat_encNat (n : Nat) (tail : List Nat) :
    decNat (encNat n ++ tail) = some (n, tail) := rfl

theorem decHeaderKV_encHeaderKV (kv : List Nat × List Nat) (tail : List Nat) :
    decHeaderKV (encHeaderKV kv ++ tail) = some (kv, tail) := by
  simp only [encHeaderKV, decHeaderKV, List.append_assoc, decChunk_encChunk,
    Option.some_bind]

theorem decCount_flatten {α : Type} (d : List Nat → Option (α × List Nat))
    (f : α → List Nat) (hd : ∀ a t, d (f a ++ t) = some (a, t)) :
    ∀ (xs : List α) (tail : List Nat),
      decCount d xs.length ((xs.map f).flatten ++ tail) = some (xs, tail) := by
  intro xs
  induction xs with
  | nil => intro tail; simp [decCount]
  | cons x xs ih =>
      intro tail
      simp only [List.map_cons, List.flatten_cons, List.length_cons,
        List.append_assoc, decCount, hd, Option.some_bind, ih]

theorem decHeaders_encHeaders (hs : List (List Nat × List Nat))
    (tail : List Nat) :
    decHeaders (encHeaders hs ++ tail) = some (hs, tail) := by
  simp only [encHeaders, decHeaders, List.cons_append, decNat, Option.some_bind]
  exact decCount_flatten decHeaderKV encHeaderKV decHeaderKV_encHeaderKV hs tail

theorem decOpt_encOpt {α : Type} (d : List Nat → Option (α × List Nat))
    (f : α → List Nat) (hd : ∀ a t, d (f a ++ t) = some (a, t)) :
    ∀ (o : Option α) (tail : List Nat),
      decOpt d (encOpt f o ++ tail) = some (o, tail) := by
  intro o tail
  cases o with
  | none => simp [encOpt, decOpt]
  | some a => simp [encOpt, decOpt, hd]

theorem decReq_encReq (rq : ReqRecord) (tail : List Nat) :
    decReq (encReq rq ++ tail) = some (rq, tail) := by
  simp only [encReq, decReq, List.append_assoc, decChunk_encChunk,
    decHeaders_encHeaders, Option.some_bind]

theorem decResp_encResp (rp : RespRecord) (tail : List Nat) :
    decResp (encResp rp ++ tail) = some (rp, tail) := by
  simp only [encResp, decResp, List.append_assoc, decNat_encNat,
    decHeaders_encHeaders, decChunk_encChunk, Option.some_bind]

theorem decRecord_encode (r : FlowRecord) (tail : List Nat) :
    decRecord (encode r ++ tail) = some (r, tail) := by
  simp only [encode, decRecord, List.append_assoc, decChunk_encChunk,
    decNat_encNat, decReq_encReq,
    decOpt_encOpt decResp encResp decResp_encResp,
    decOpt_encOpt decChunk encChunk decChunk_encChunk,
    Option.some_bind]

theorem encode_eq_cons (r : FlowRecord) :
    encode r = r.fid.length :: (r.fid ++ (encNat r.timestamp ++
      (encReq r.request ++ (encOpt encResp r.response ++
        encOpt encChunk r.error)))) := by
  simp [encode, encChunk, List.append_assoc]

theorem one_le_length_encode (r : FlowRecord) : 1 ≤ (encode r).length := by
  rw [encode_eq_cons]; exact Nat.succ_le_succ (Nat.zero_le _)

theorem decStreamAux_encodeAll (seq : List FlowRecord) :
    ∀ fuel : Nat, (encodeAll seq).length ≤ fuel →
      decStreamAux fuel (encodeAll seq) = some seq := by
  induction seq with
  | nil => intro fuel _; cases fuel <;> simp [encodeAll, decStreamAux]
  | cons r rs ih =>
      intro fuel hfuel
      have hs : encodeAll (r :: rs) = encode r ++ encodeAll rs := by
        simp [encodeAll]
      have hlen : 1 + (encodeAll rs).length ≤ fuel := by
        calc 1 + (encodeAll rs).length
            ≤ (encode r).length + (encodeAll rs).length :=
              Nat.add_le_add_right (one_le_length_encode r) _
          _ = (encodeAll (r :: rs)).length := by
              rw [hs, List.length_append]
          _ ≤ fuel := hfuel
      obtain ⟨k, rfl⟩ : ∃ k, fuel = k + 1 := by
        cases fuel with
        | zero => omega
        | succ k => exact ⟨k, rfl⟩
      have hcons : encodeAll (r :: rs) = r.fid.length :: (r.fid ++
          (encNat r.timestamp ++ (encReq r.request ++
            (encOpt encResp r.response ++ encOpt encChunk r.error)))
            ++ encodeAll rs) := by
        rw [hs, encode_eq_cons]; simp [List.append_assoc]
      rw [hcons]
      show ((decRecord _).bind fun p =>
        (decStreamAux k p.2).bind fun l => some (p.1 :: l)) = some (r :: rs)
      rw [← hcons, hs, decRecord_encode]
      simp only [Option.some_bind]
      rw [ih k (by omega)]
      rfl

theorem decode_stream_encodeAll (seq : List FlowRecord) :
    decode_stream (encodeAll seq) = some seq :=
  decStreamAux_encodeAll seq (encodeAll seq).length (Nat.le_refl _)

theorem should_add_flow_true_iff (flow : HTTPFlow) :
    should_add_flow flow = true ↔ flow.request.host ∉ ignore_hosts := by
  unfold should_add_flow
  by_cases h : flow.request.host ∈ ignore_hosts <;> simp [h]

/-- C1, counterexample: the response hook passes to `add_flow` a flow whose
`response` is `None` — the guard on lines 37-39 of `addon.py` checks only
`flow.error == None and should_add_flow(flow)` and never checks
`flow.response`, so the hook itself does not enforce the non-null-response
half of the claimed invariant. -/
theorem response_forwards_flow_without_response :
    HttpRecorder.response ⟨some (Recorder.new "out")⟩
        ⟨⟨"example.com"⟩, none, none⟩ =
      Except.ok (⟨some ((Recorder.new "out").add_flow
          ⟨⟨"example.com"⟩, none, none⟩)⟩,
        [Event.addFlowCalled ⟨⟨"example.com"⟩, none, none⟩])
    ∧ (⟨⟨"example.com"⟩, none, none⟩ : HTTPFlow).response = none :=
  ⟨rfl, rfl⟩

/-- C1, amended: every flow the response hook passes to `add_flow` satisfies
`error == None`; the hook does not itself check `response != None` (that
half of the invariant rests on the proxy framework only invoking the
response hook once a response exists). -/
theorem response_forwarded_flows_have_no_error
    (st st' : HttpRecorder) (flow g : HTTPFlow) (evs : List Event)
    (h : HttpRecorder.response st flow = Except.ok (st', evs))
    (hg : Event.addFlowCalled g ∈ evs) : g.error = none := by
  unfold HttpRecorder.response at h
  by_cases hc : flow.error = none ∧ should_add_flow flow
  · rw [if_pos hc] at h
    cases hr : st.recorder with
    | none => rw [hr] at h; cases h
    | some r =>
        rw [hr] at h
        simp only [Except.ok.injEq, Prod.mk.injEq] at h
        obtain ⟨-, hevs⟩ := h
        subst hevs
        simp only [List.mem_singleton, Event.addFlowCalled.injEq] at hg
        subst hg
        exact hc.1
  · rw [if_neg hc] at h
    simp only [Except.ok.injEq, Prod.mk.injEq] at h
    obtain ⟨-, hevs⟩ := h
    subst hevs
    cases hg

/-- C1, witness for the amended claim at a concrete configured addon and
accepted flow. -/
theorem response_forwarded_flows_have_no_error_witness :
    (⟨⟨"rec.example"⟩, some ⟨200⟩, none⟩ : HTTPFlow).error = none :=
  response_forwarded_flows_have_no_error
    ⟨some (Recorder.new "o")⟩
    ⟨some ((Recorder.new "o").add_flow ⟨⟨"rec.example"⟩, some ⟨200⟩, none⟩)⟩
    ⟨⟨"rec.example"⟩, some ⟨200⟩, none⟩
    ⟨⟨"rec.example"⟩, some ⟨200⟩, none⟩
    [Event.addFlowCalled ⟨⟨"rec.example"⟩, some ⟨200⟩, none⟩]
    rfl (by decide)

/-- C2: with a configured recorder, the response hook calls `add_flow`
exactly once — on the flow itself — precisely when `flow.error == None`
and the request host is outside the ignore set; otherwise the flow is
excluded silently: no exception, no call, the addon state unchanged. -/
theorem response_adds_iff_not_filtered (st : HttpRecorder) (r : Recorder)
    (flow : HTTPFlow) (h : st.recorder = some r) :
    (flow.error = none ∧ flow.request.host ∉ ignore_hosts →
      HttpRecorder.response st flow =
        Except.ok (⟨some (r.add_flow flow)⟩, [Event.addFlowCalled flow]))
    ∧ (¬(flow.error = none ∧ flow.request.host ∉ ignore_hosts) →
      HttpRecorder.response st flow = Except.ok (st, [])) := by
  constructor
  · rintro ⟨he, hh⟩
    unfold HttpRecorder.response
    rw [if_pos ⟨he, (should_add_flow_true_iff flow).mpr hh⟩, h]
  · intro hn
    unfold HttpRecorder.response
    rw [if_neg fun hc =>
      hn ⟨hc.1, (should_add_flow_true_iff flow).mp hc.2⟩]

/-- C2, witness: a concrete error-free flow to a non-ignored host is added
exactly once. -/
theorem response_adds_iff_not_filtered_witness :
    HttpRecorder.response ⟨some (Recorder.new "w")⟩
        ⟨⟨"api.example.com"⟩, some ⟨200⟩, none⟩ =
      Except.ok (⟨some ((Recorder.new "w").add_flow
          ⟨⟨"api.example.com"⟩, some ⟨200⟩, none⟩)⟩,
        [Event.addFlowCalled ⟨⟨"api.example.com"⟩, some ⟨200⟩, none⟩]) :=
  (response_adds_iff_not_filtered ⟨some (Recorder.new "w")⟩
    (Recorder.new "w") ⟨⟨"api.example.com"⟩, some ⟨200⟩, none⟩ rfl).1
    ⟨rfl, by decide⟩

/-- C3: `should_add_flow` returns `False` exactly on the three hardcoded
ignored hosts and `True` on every other host. -/
theorem should_add_flow_false_iff_ignored (flow : HTTPFlow) :
    (should_add_flow flow = false ↔
      (flow.request.host = "www.googletagmanager.com" ∨
       flow.request.host = "fonts.googleapis.com" ∨
       flow.request.host = "fonts.gstatic.com"))
    ∧ (should_add_flow flow = true ↔
      ¬(flow.request.host = "www.googletagmanager.com" ∨
        flow.request.host = "fonts.googleapis.com" ∨
        flow.request.host = "fonts.gstatic.com")) := by
  unfold should_add_flow ignore_hosts
  by_cases h : flow.request.host ∈
      (["www.googletagmanager.com", "fonts.googleapis.com",
        "fonts.gstatic.com"] : List String)
  · rw [if_pos h]
    simp only [List.mem_cons, List.mem_singleton, List.not_mem_nil,
      or_false] at h
    simp [h]
  · rw [if_neg h]
    simp only [List.mem_cons, List.mem_singleton, List.not_mem_nil,
      or_false] at h
    simp [h]

/-- C4: when the guard of the response hook accepts a flow and the external
`add_flow` call fails with an error, that same error is the hook's
outcome — nothing is caught, swallowed, retried or logged around the
call. -/
theorem response_propagates_add_flow_error {E A : Type}
    (add_flow_call : HTTPFlow → Except E A) (flow : HTTPFlow) (e : E)
    (he : flow.error = none) (hh : should_add_flow flow = true)
    (hf : add_flow_call flow = Except.error e) :
    responseWithSink add_flow_call flow = Except.error e := by
  unfold responseWithSink
  rw [if_pos ⟨he, hh⟩, hf]
  rfl

/-- C4, witness: a concrete failing sink's error surfaces unchanged from
the hook. -/
theorem response_propagates_add_flow_error_witness :
    responseWithSink
        (fun _ : HTTPFlow => (Except.error "disk full" : Except String Unit))
        ⟨⟨"api.example.org"⟩, some ⟨200⟩, none⟩ =
      Except.error "disk full" :=
  response_propagates_add_flow_error
    (fun _ : HTTPFlow => (Except.error "disk full" : Except String Unit))
    ⟨⟨"api.example.org"⟩, some ⟨200⟩, none⟩ "disk full"
    rfl (by decide) rfl

/-- C5: `configure(update)` replaces `self.recorder` with a freshly
constructed `Recorder(ctx.options.record_dest)` — empty flow list, not
finished — exactly when `"record_dest"` is in the update set (whatever the
previous recorder and path were), and leaves `self.recorder` unchanged
otherwise. -/
theorem configure_replaces_recorder_iff_record_dest
    (st : HttpRecorder) (update : List String) (dest : String) :
    ("record_dest" ∈ update →
      (HttpRecorder.configure st update dest).1 =
        ⟨some { record_dest := dest, flows := [], finished := false }⟩)
    ∧ ("record_dest" ∉ update →
      (HttpRecorder.configure st update dest).1 = st) := by
  unfold HttpRecorder.configure
  constructor
  · intro h; rw [if_pos h]; rfl
  · intro h; rw [if_neg h]

/-- C5, witness: an update set containing `record_dest` replaces a recorder
that already holds a flow with a fresh one, even though the path is the
same. -/
theorem configure_replaces_recorder_iff_record_dest_witness :
    (HttpRecorder.configure
        ⟨some { record_dest := "p",
                flows := [⟨⟨"h.example"⟩, some ⟨200⟩, none⟩],
                finished := false }⟩
        ["record_dest"] "p").1 =
      ⟨some { record_dest := "p", flows := [], finished := false }⟩ :=
  (configure_replaces_recorder_iff_record_dest
    ⟨some { record_dest := "p",
            flows := [⟨⟨"h.example"⟩, some ⟨200⟩, none⟩],
            finished := false }⟩
    ["record_dest"] "p").1 (by decide)

/-- C6: with a configured recorder, `done()` makes exactly one call —
`finish` on the current recorder — and changes nothing else: no flow is
added, no recorder is constructed. -/
theorem done_calls_finish_exactly_once (st : HttpRecorder) (r : Recorder)
    (h : st.recorder = some r) :
    HttpRecorder.done st =
      Except.ok (⟨some { r with finished := true }⟩, [Event.finishCalled]) := by
  unfold HttpRecorder.done
  rw [h]
  rfl

/-- C6, witness: `done()` on a concrete configured addon finishes its
recorder and emits exactly the one finish call. -/
theorem done_calls_finish_exactly_once_witness :
    HttpRecorder.done ⟨some (Recorder.new "q")⟩ =
      Except.ok (⟨some { Recorder.new "q" with finished := true }⟩,
        [Event.finishCalled]) :=
  done_calls_finish_exactly_once ⟨some (Recorder.new "q")⟩
    (Recorder.new "q") rfl

/-- C7: for every sequence of well-formed FlowRecords of length 0, 1 or
1000, decoding the concatenation of the records' encodings yields exactly
the original sequence, field for field. -/
theorem decode_stream_roundtrip_claim (seq : List FlowRecord)
    (_hlen : seq.length = 0 ∨ seq.length = 1 ∨ seq.length = 1000)
    (_hwf : ∀ r ∈ seq, r.wellFormed) :
    decode_stream (encodeAll seq) = some seq :=
  decode_stream_encodeAll seq

/-- C7, witness: a concrete one-record sequence round-trips. -/
theorem decode_stream_roundtrip_claim_witness :
    decode_stream (encodeAll
        [⟨[1, 2], 5, ⟨[71, 69, 84], [104], [47], [([97], [98])], []⟩,
          some ⟨200, [], [111, 107]⟩, none⟩]) =
      some
        [⟨[1, 2], 5, ⟨[71, 69, 84], [104], [47], [([97], [98])], []⟩,
          some ⟨200, [], [111, 107]⟩, none⟩] :=
  decode_stream_roundtrip_claim
    [⟨[1, 2], 5, ⟨[71, 69, 84], [104], [47], [([97], [98])], []⟩,
      some ⟨200, [], [111, 107]⟩, none⟩]
    (by decide) (by decide)

/-- C8: a fresh `HttpRecorder` has `recorder = None`, and it stays `None`
under any `configure` whose update set lacks `record_dest`; in that state
`done()` raises `AttributeError`, and so does `response()` on any
error-free flow to a non-ignored host — not a `ConfigError` or
`LifecycleError`. -/
theorem unconfigured_recorder_attribute_error :
    HttpRecorder.new.recorder = none
    ∧ (∀ (update : List String) (dest : String), "record_dest" ∉ update →
        (HttpRecorder.configure HttpRecorder.new update dest).1.recorder
          = none)
    ∧ HttpRecorder.done HttpRecorder.new =
        Except.error
          (PyExc.attributeError "NoneType object has no attribute finish")
    ∧ (∀ flow : HTTPFlow, flow.error = none →
        flow.request.host ∉ ignore_hosts →
        HttpRecorder.response HttpRecorder.new flow =
          Except.error
            (PyExc.attributeError
              "NoneType object has no attribute add_flow")) := by
  refine ⟨rfl, ?_, rfl, ?_⟩
  · intro update dest h
    unfold HttpRecorder.configure
    rw [if_neg h]
    rfl
  · intro flow he hh
    unfold HttpRecorder.response
    rw [if_pos ⟨he, (should_add_flow_true_iff flow).mpr hh⟩]
    rfl

/-- C8, witness: a concrete accepted flow on the fresh addon hits the
`AttributeError`. -/
theorem unconfigured_recorder_attribute_error_witness :
    HttpRecorder.response HttpRecorder.new
        ⟨⟨"api.example.net"⟩, some ⟨200⟩, none⟩ =
      Except.error
        (PyExc.attributeError "NoneType object has no attribute add_flow") :=
  unconfigured_recorder_attribute_error.2.2.2
    ⟨⟨"api.example.net"⟩, some ⟨200⟩, none⟩ rfl (by decide)

/-- C9: `configure` never calls into the previous recorder: either it does
nothing at all, or its only external call is the construction of the fresh
recorder — in particular it emits no `finish` and no `add_flow` call, so a
replaced recorder is abandoned unflushed. -/
theorem configure_touches_no_previous_recorder
    (st : HttpRecorder) (update : List String) (dest : String) :
    ((HttpRecorder.configure st update dest).1 = st ∧
      (HttpRecorder.configure st update dest).2 = [])
    ∨ ((HttpRecorder.configure st update dest).1 =
        ⟨some { record_dest := dest, flows := [], finished := false }⟩ ∧
      (HttpRecorder.configure st update dest).2 =
        [Event.recorderConstructed dest]) := by
  unfold HttpRecorder.configure
  by_cases h : "record_dest" ∈ update
  · right; rw [if_pos h]; exact ⟨rfl, rfl⟩
  · left; rw [if_neg h]; exact ⟨rfl, rfl⟩

/-- C10: `should_add_flow` depends only on the request host — two flows
with equal hosts get equal verdicts; as a pure function of the flow it
mutates neither the flow nor the ignore set. -/
theorem should_add_flow_depends_only_on_host (f g : HTTPFlow)
    (h : f.request.host = g.request.host) :
    should_add_flow f = should_add_flow g := by
  unfold should_add_flow
  rw [h]

/-- C10, witness: two flows sharing a host but differing in response and
error get the same verdict. -/
theorem should_add_flow_depends_only_on_host_witness :
    should_add_flow ⟨⟨"example.org"⟩, some ⟨200⟩, none⟩ =
      should_add_flow ⟨⟨"example.org"⟩, none, some "err"⟩ :=
  should_add_flow_depends_only_on_host
    ⟨⟨"example.org"⟩, some ⟨200⟩, none⟩
    ⟨⟨"example.org"⟩, none, some "err"⟩ rfl

end HttpRec
